import Mathlib

/-!
# paperboy — `mail/campaign.go`

A shallow embedding of the campaign renderer: `LoadCampaign`, `parseTemplate`,
`parseRecipients`, `MessageFor`, `renderMessage`, `renderPlain`, `renderHTML`
and `renderIntoLayout`.

Modelling conventions.

* Go `string` and `[]byte` are both byte sequences and the conversions between
  them are the identity; both are `String` here and `len` is the byte length.
* A Go `error` is `Option Err`, `none` being `nil`.  A Go result pair
  `(v, err)` is a Lean pair whenever the source looks at `v` without having
  checked `err` (`afero.ReadFile`, `Template.Execute`, `yaml.Unmarshal`,
  `inliner.Inline`).
* The packages the file imports (viper, afero, text/template, blackfriday,
  douceur, yaml, cast, path/filepath, the frontmatter reader) are not part of
  the file.  Their functions are the fields of `Env`; every theorem holds for
  all of them unless it names an assumption.
* Every call that leaves the file is recorded, in order, in `St.trace`, and a
  run-time panic is an `Outcome` of its own, so that "was not read", "no later
  stage runs" and "index out of range" are statements about a run.
* `St.msg` is the `*gomail.Message` that `renderMessage` receives.
* `Config`, `AppFs` and `Campaign.tText` are taken to be non-nil, as they are
  for a campaign built by `LoadCampaign` under a configured command.
-/

namespace Paperboy

/-! ## Data -/

/-- The text of a Go `error`. -/
abbrev Err := String

/-- The dynamic values (`interface{}`) stored in recipient and metadata maps.
`nil` is also what indexing a map at a missing key yields; `other` stands for
floats, slices and nested maps. -/
inductive Value where
  | nil
  | str (s : String)
  | num (n : Int)
  | bool (b : Bool)
  | other (tag : String)
  deriving DecidableEq, Repr

/-- A `map[string]interface{}`; the nil map is the empty list. -/
abbrev AttrMap := List (String × Value)

/-- Map indexing `m[k]`: the stored value, or `nil` when the key is absent. -/
def AttrMap.index (m : AttrMap) (k : String) : Value :=
  match m.lookup k with
  | some v => v
  | none => Value.nil

/-- The template context `tmplContext`. -/
structure tmplContext where
  User : AttrMap
  Campaign : AttrMap
  CssContent : String
  Content : String
  deriving DecidableEq, Repr

/-- A parsed `*template.Template`, identified by the name it was created under
and the text it was parsed from. -/
structure Template where
  name : String
  text : String
  deriving DecidableEq, Repr

/-- What `Email.Metadata()` hands back as its `interface{}` result. -/
inductive MetaValue where
  | nil
  | mapping (m : AttrMap)
  | otherType
  deriving DecidableEq, Repr

/-- A `parser.Email`: the results of its `Metadata()` and `Content()` methods. -/
structure Email where
  metadata : MetaValue × Option Err
  content : String
  deriving DecidableEq, Repr

/-- The struct `Campaign`. -/
structure Campaign where
  Recipients : List AttrMap
  EmailMeta : AttrMap
  Email : Email
  tText : Template
  deriving DecidableEq, Repr

/-- The `os.FileInfo` of a successful `Stat`, as far as the file looks at it. -/
structure FileInfo where
  isDir : Bool
  deriving DecidableEq, Repr

/-- What a header field of a `gomail.Message` was set to: the arguments of
`SetHeader` or of `SetAddressHeader`. -/
inductive HeaderValue where
  | values (vs : List String)
  | address (address name : String)
  deriving DecidableEq, Repr

/-- A `gomail.Message` as seen through its setters: the header map, the body
parts (content type and body, the first being the main body) and the
attachment lists that `Reset` clears. -/
structure Message where
  header : List (String × HeaderValue)
  parts : List (String × String)
  attachments : List String
  embedded : List String
  deriving DecidableEq, Repr

/-- The state `gomail.NewMessage()` returns. -/
def NewMessage : Message :=
  { header := [], parts := [], attachments := [], embedded := [] }

/-- Go `m.Reset()`. -/
def Message.Reset (_m : Message) : Message :=
  { header := [], parts := [], attachments := [], embedded := [] }

/-- Assignment `h[field] = v` on the header map. -/
def setField (h : List (String × HeaderValue)) (field : String) (v : HeaderValue) :
    List (String × HeaderValue) :=
  h.filter (fun e => e.1 != field) ++ [(field, v)]

/-- Go `m.SetAddressHeader(field, address, name)`. -/
def Message.SetAddressHeader (m : Message) (field address name : String) : Message :=
  { m with header := setField m.header field (HeaderValue.address address name) }

/-- Go `m.SetHeader(field, value...)`. -/
def Message.SetHeader (m : Message) (field : String) (value : List String) : Message :=
  { m with header := setField m.header field (HeaderValue.values value) }

/-- Go `m.SetBody(contentType, body)`: the parts become the single given part. -/
def Message.SetBody (m : Message) (contentType body : String) : Message :=
  { m with parts := [(contentType, body)] }

/-- Go `m.AddAlternative(contentType, body)`: one more part after the others. -/
def Message.AddAlternative (m : Message) (contentType body : String) : Message :=
  { m with parts := m.parts ++ [(contentType, body)] }

/-! ## The imported packages -/

/-- The functions of the imported packages and of the two package variables
`Config` and `AppFs`. -/
structure Env where
  /-- Go `Config.GetString(key)` -/
  configGetString : String → String
  /-- Go `filepath.Join(dir, name)` -/
  filepathJoin : String → String → String
  /-- Go `AppFs.Stat(path)`; `none` is a non-nil error. -/
  fsStat : String → Option FileInfo
  /-- Go `afero.ReadFile(AppFs, path)`: the bytes read and the error. -/
  fsReadFile : String → String × Option Err
  /-- Go `AppFs.Open(path)`: the error, the handle being the path. -/
  fsOpen : String → Option Err
  /-- Go `parser.ReadFrom(file)` on the handle opened at the path. -/
  parserReadFrom : String → Except Err Email
  /-- Go `yaml.Unmarshal(raw, &out)`: what `out` holds afterwards, and the error. -/
  yamlUnmarshal : String → List AttrMap × Option Err
  /-- Go `template.New(name).Parse(text)`: the error, `none` when it parses. -/
  templateParse : String → String → Option Err
  /-- Go `t.Execute(&buf, ctx)`: what the buffer holds afterwards, and the error. -/
  templateExecute : Template → tmplContext → String × Option Err
  /-- Go `blackfriday.MarkdownCommon(body)` -/
  markdownCommon : String → String
  /-- Go `inliner.Inline(html)` -/
  inlinerInline : String → String × Option Err
  /-- Go `cast.ToString(v)` -/
  castToString : Value → String

/-! ## Runs -/

/-- A call that leaves the file. -/
inductive Event where
  | println (args : List String)
  | stat (path : String)
  | readFile (path : String)
  | openFile (path : String)
  | closeFile (path : String)
  | readFrom (path : String)
  | unmarshal (raw : String)
  | parse (name text : String)
  | execute (t : Template) (ctx : tmplContext)
  | markdown (body : String)
  | inlineCss (html : String)
  deriving DecidableEq, Repr

/-- The message `renderMessage` writes to, and the calls made so far. -/
structure St where
  msg : Message
  trace : List Event
  deriving DecidableEq, Repr

/-- How a call ends: it returns, or it panics. -/
inductive Outcome (α : Type) where
  | ret (a : α)
  | panic (reason : String)
  deriving DecidableEq, Repr

/-- A Go function body: from the state before to the outcome and state after. -/
def Go (α : Type) : Type := St → Outcome α × St

/-- Returning without an effect. -/
def Go.pure {α : Type} (a : α) : Go α := fun s => (Outcome.ret a, s)

/-- Sequencing; a panic skips what follows. -/
def Go.bind {α β : Type} (m : Go α) (f : α → Go β) : Go β := fun s =>
  match m s with
  | (Outcome.ret a, s1) => f a s1
  | (Outcome.panic r, s1) => (Outcome.panic r, s1)

instance : Monad Go where
  pure := Go.pure
  bind := Go.bind

/-- Record a call. -/
def emit (e : Event) : Go Unit := fun s =>
  (Outcome.ret (), { s with trace := s.trace ++ [e] })

/-- A run-time panic. -/
def goPanic {α : Type} (reason : String) : Go α := fun s => (Outcome.panic reason, s)

/-- Apply a setter to the message. -/
def onMsg (f : Message → Message) : Go Unit := fun s =>
  (Outcome.ret (), { s with msg := f s.msg })

/-- Slice indexing `xs[i]` with Go's bounds check. -/
def sliceIndex {α : Type} (xs : List α) (i : Int) : Go α :=
  if h : 0 ≤ i ∧ i.toNat < xs.length then Go.pure (xs.get ⟨i.toNat, h.2⟩)
  else goPanic "runtime error: index out of range"

/-- Go `len(b)` of a byte slice. -/
def len (b : String) : Nat := b.utf8ByteSize

/-- The test `err == nil && !s.IsDir()` on the result of `Stat`. -/
def isFile (r : Option FileInfo) : Bool :=
  match r with
  | some s => !s.isDir
  | none => false

/-- Go `AppFs.Stat(path)` -/
def Stat (E : Env) (path : String) : Go (Option FileInfo) := do
  emit (Event.stat path)
  return E.fsStat path

/-- Go `afero.ReadFile(AppFs, path)` -/
def ReadFile (E : Env) (path : String) : Go (String × Option Err) := do
  emit (Event.readFile path)
  return E.fsReadFile path

/-- Go `template.New(name).Parse(text)` -/
def Parse (E : Env) (name text : String) : Go (Except Err Template) := do
  emit (Event.parse name text)
  match E.templateParse name text with
  | some err => return Except.error err
  | none => return Except.ok { name := name, text := text }

/-- Go `t.Execute(&buf, ctx)` on a fresh buffer. -/
def Execute (E : Env) (t : Template) (ctx : tmplContext) : Go (String × Option Err) := do
  emit (Event.execute t ctx)
  return E.templateExecute t ctx

/-- Go `blackfriday.MarkdownCommon(body)` -/
def MarkdownCommon (E : Env) (body : String) : Go String := do
  emit (Event.markdown body)
  return E.markdownCommon body

/-- Go `inliner.Inline(html)` -/
def Inline (E : Env) (html : String) : Go (String × Option Err) := do
  emit (Event.inlineCss html)
  return E.inlinerInline html

/-! ## `campaign.go` -/

/-- The default layout of `renderHTML`. -/
def defaultHTMLLayout : String := "<html><body>\x7b\x7b .Content \x7d\x7d</body></html>"

/-- Go `renderIntoLayout(body, layoutPath, defaultLayout, ctx)` -/
def renderIntoLayout (E : Env) (body layoutPath defaultLayout : String) (ctx : tmplContext) :
    Go (String × Option Err) := do
  let mut layout := defaultLayout
  let s ← Stat E layoutPath
  if isFile s then
    let (bytes, err) ← ReadFile E layoutPath
    layout := bytes
    if err.isSome then
      return ("", err)
  else if len layout == 0 then
    return (body, none)
  match ← Parse E "layout" layout with
  | Except.error err => return ("", some err)
  | Except.ok tmpl =>
    let layoutCtx : tmplContext := { ctx with Content := body }
    let (out, err) ← Execute E tmpl layoutCtx
    return (out, err)

/-- Go `renderPlain(body, layoutPath, ctx)` -/
def renderPlain (E : Env) (body layoutPath : String) (ctx : tmplContext) :
    Go (String × Option Err) :=
  renderIntoLayout E body layoutPath "" ctx

/-- Go `renderHTML(body, layoutPath, ctx)` -/
def renderHTML (E : Env) (body layoutPath : String) (ctx : tmplContext) :
    Go (String × Option Err) := do
  let bodyMD ← MarkdownCommon E body
  let (html, err) ← renderIntoLayout E bodyMD layoutPath defaultHTMLLayout ctx
  if err.isSome then
    return ("", err)
  Inline E html

/-- The stylesheet path of `renderMessage`. -/
def cssFile (E : Env) : String :=
  E.filepathJoin (E.configGetString "layoutDir") "_default.css"

/-- The plain layout path of `renderMessage`. -/
def tLayoutFile (E : Env) : String :=
  E.filepathJoin (E.configGetString "layoutDir") "_default.text"

/-- The HTML layout path of `renderMessage`. -/
def hLayoutFile (E : Env) : String :=
  E.filepathJoin (E.configGetString "layoutDir") "_default.html"

/-- Go `(c *Campaign).renderMessage(m, i)`, `m` being `St.msg`. -/
def renderMessage (E : Env) (c : Campaign) (i : Int) : Go (Option Err) := do
  let w ← sliceIndex c.Recipients i
  let mut ctx : tmplContext := { User := w, Campaign := c.EmailMeta, CssContent := "", Content := "" }
  let (content, err) ← Execute E c.tText ctx
  if err.isSome then
    return err
  let s ← Stat E (cssFile E)
  if isFile s then
    let (cssBytes, _) ← ReadFile E (cssFile E)
    ctx := { ctx with CssContent := cssBytes }
  let (plainBody, err) ← renderPlain E content (tLayoutFile E) ctx
  if err.isSome then
    return err
  let (htmlBody, err) ← renderHTML E content (hLayoutFile E) ctx
  if err.isSome then
    return err
  let toEmail := E.castToString (w.index "email")
  let toName := E.castToString (w.index "username")
  onMsg Message.Reset
  onMsg (fun m => m.SetAddressHeader "To" toEmail toName)
  onMsg (fun m => m.SetHeader "From" [E.castToString (c.EmailMeta.index "from")])
  onMsg (fun m => m.SetHeader "Subject" [E.castToString (c.EmailMeta.index "subject")])
  onMsg (fun m => m.SetBody "text/plain" plainBody)
  onMsg (fun m => m.AddAlternative "text/html" htmlBody)
  return none

/-- Go `(c *Campaign).MessageFor(i)`: the new message and the error of rendering
into it. -/
def MessageFor (E : Env) (c : Campaign) (i : Int) : Go (Message × Option Err) := do
  onMsg (fun _ => NewMessage)
  let err ← renderMessage E c i
  let m ← (fun s => (Outcome.ret s.msg, s) : Go Message)
  return (m, err)

/-- Go `parseRecipients(path)`.  The source returns `out, yaml.Unmarshal(raw, &out)`;
the slice handed back is the one `Unmarshal` filled in. -/
def parseRecipients (E : Env) (path : String) : Go (List AttrMap × Option Err) := do
  emit (Event.println ["Loading recipients: ", path])
  let (raw, err) ← ReadFile E path
  if err.isSome then
    return ([], err)
  emit (Event.unmarshal raw)
  return E.yamlUnmarshal raw

/-- Go `parseTemplate(path)`; the deferred `file.Close()` runs on the way out. -/
def parseTemplate (E : Env) (path : String) : Go (Except Err Email) := do
  emit (Event.println ["Loading template: ", path])
  emit (Event.openFile path)
  match E.fsOpen path with
  | some err => return Except.error err
  | none =>
    emit (Event.readFrom path)
    let r := E.parserReadFrom path
    emit (Event.closeFile path)
    return r

/-- The frontmatter cast of `LoadCampaign`: `fMeta` stays the nil map unless
`Metadata()` gave no error and a non-nil `map[string]interface{}`. -/
def castMeta (r : MetaValue × Option Err) : AttrMap :=
  match r with
  | (MetaValue.mapping m, none) => m
  | _ => []

/-- Go `LoadCampaign(tmplID, listID)` -/
def LoadCampaign (E : Env) (tmplID listID : String) : Go (Option Campaign × Option Err) := do
  let tmplFile := E.filepathJoin (E.configGetString "contentDir") (tmplID ++ ".md")
  let listFile := E.filepathJoin (E.configGetString "listDir") (listID ++ ".yml")
  match ← parseTemplate E tmplFile with
  | Except.error err => return (none, some err)
  | Except.ok email =>
    let fMeta := castMeta email.metadata
    match ← Parse E "email" email.content with
    | Except.error err => return (none, some err)
    | Except.ok tmpl =>
      let (who, err) ← parseRecipients E listFile
      if err.isSome then
        return (none, err)
      return (some { Recipients := who, EmailMeta := fMeta, Email := email, tText := tmpl }, none)

/-! ## Notions the statements use -/

/-- Extending the trace of a state. -/
def St.log (s : St) (evs : List Event) : St := { s with trace := s.trace ++ evs }

/-- The first context of `renderMessage`, handed to the body template. -/
def bodyCtx (c : Campaign) (w : AttrMap) : tmplContext :=
  { User := w, Campaign := c.EmailMeta, CssContent := "", Content := "" }

/-- The value `ctx.CssContent` holds once the stylesheet step is over. -/
def cssContent (E : Env) : String :=
  if isFile (E.fsStat (cssFile E)) then (E.fsReadFile (cssFile E)).1 else ""

/-- The calls of the stylesheet step. -/
def cssEvents (E : Env) : List Event :=
  if isFile (E.fsStat (cssFile E)) then [Event.stat (cssFile E), Event.readFile (cssFile E)]
  else [Event.stat (cssFile E)]

/-- The context `renderMessage` hands to both layout stages. -/
def layoutCtx (E : Env) (c : Campaign) (w : AttrMap) : tmplContext :=
  { User := w, Campaign := c.EmailMeta, CssContent := cssContent E, Content := "" }

/-- The message `renderMessage` assembles from the two bodies. -/
def assembled (E : Env) (c : Campaign) (w : AttrMap) (plainBody htmlBody : String) : Message :=
  { header :=
      [("To", HeaderValue.address (E.castToString (w.index "email"))
          (E.castToString (w.index "username"))),
       ("From", HeaderValue.values [E.castToString (c.EmailMeta.index "from")]),
       ("Subject", HeaderValue.values [E.castToString (c.EmailMeta.index "subject")])]
    parts := [("text/plain", plainBody), ("text/html", htmlBody)]
    attachments := []
    embedded := [] }

/-- The layout string `renderIntoLayout` works with: the bytes read from the
layout path when it is a regular file, the caller's default otherwise. -/
def resolvedLayout (E : Env) (path dflt : String) : String :=
  if isFile (E.fsStat path) then (E.fsReadFile path).1 else dflt

/-- The assumption on text/template that the default HTML layout parses and
renders as its literal text around the `Content` string, printed as it is. -/
def RendersDefaultLayout (E : Env) : Prop :=
  E.templateParse "layout" defaultHTMLLayout = none ∧
  ∀ ctx : tmplContext,
    E.templateExecute { name := "layout", text := defaultHTMLLayout } ctx =
      ("<html><body>" ++ ctx.Content ++ "</body></html>", none)

/-! ## A concrete environment for worked examples

A small in-memory file system and stand-ins for the imported packages.  They
are used only to evaluate the functions above on concrete inputs. -/

/-- An entry of the in-memory file system: a directory, a readable file, or a
regular file whose read breaks off with an error after some bytes. -/
inductive Entry where
  | dir
  | file (content : String)
  | failing (read : String) (err : Err)
  deriving DecidableEq, Repr

/-- The `Stat` of the in-memory file system. -/
def demoStat (fs : List (String × Entry)) (path : String) : Option FileInfo :=
  match fs.lookup path with
  | some Entry.dir => some { isDir := true }
  | some _ => some { isDir := false }
  | none => none

/-- The `ReadFile` of the in-memory file system. -/
def demoReadFile (fs : List (String × Entry)) (path : String) : String × Option Err :=
  match fs.lookup path with
  | some (Entry.file content) => (content, none)
  | some (Entry.failing read err) => (read, some err)
  | some Entry.dir => ("", some "is a directory")
  | none => ("", some "file does not exist")

/-- The `Open` of the in-memory file system. -/
def demoOpen (fs : List (String × Entry)) (path : String) : Option Err :=
  match fs.lookup path with
  | some _ => none
  | none => some "file does not exist"

/-- The one action the stand-in template engine knows. -/
def contentAction : List Char := "\x7b\x7b .Content \x7d\x7d".data

/-- Expansion of a template that is literal text with `{{ .Content }}` actions;
`none` when the text holds any other `{{`.  On such templates text/template
copies the text and prints the `Content` string, unescaped, at each action. -/
def demoExpand (content : String) : Nat → List Char → Option (List Char)
  | 0, _ => some []
  | fuel + 1, cs =>
    match cs with
    | [] => some []
    | c :: rest =>
      if contentAction.isPrefixOf cs then
        (demoExpand content fuel (cs.drop contentAction.length)).map (fun out => content.data ++ out)
      else if "\x7b\x7b".data.isPrefixOf cs then none
      else (demoExpand content fuel rest).map (fun out => c :: out)

/-- The stand-in for `template.New(name).Parse(text)`. -/
def demoParse (name text : String) : Option Err :=
  match demoExpand "" (text.length + 1) text.data with
  | some _ => none
  | none => some ("template: " ++ name ++ ": unexpected action")

/-- The stand-in for `t.Execute(&buf, ctx)`. -/
def demoExecute (t : Template) (ctx : tmplContext) : String × Option Err :=
  match demoExpand ctx.Content (t.text.length + 1) t.text.data with
  | some out => (String.mk out, none)
  | none => ("", some ("template: " ++ t.name ++ ": cannot execute"))

/-- The stand-in for `cast.ToString`. -/
def demoCast (v : Value) : String :=
  match v with
  | Value.str s => s
  | Value.bool true => "true"
  | Value.bool false => "false"
  | _ => ""

/-- The recipients the stand-in YAML decoder knows. -/
def demoRecipients : List AttrMap :=
  [[("email", Value.str "a@x.com"), ("username", Value.str "A")],
   [("email", Value.str "b@x.com")]]

/-- The environment over a given in-memory file system. -/
def demoEnv (fs : List (String × Entry)) : Env where
  configGetString := fun key =>
    if key = "layoutDir" then "layouts"
    else if key = "contentDir" then "content"
    else if key = "listDir" then "lists"
    else ""
  filepathJoin := fun dir name => dir ++ "/" ++ name
  fsStat := demoStat fs
  fsReadFile := demoReadFile fs
  fsOpen := demoOpen fs
  parserReadFrom := fun path =>
    match fs.lookup path with
    | some (Entry.file content) =>
      Except.ok
        { metadata :=
            (MetaValue.mapping [("subject", Value.str "Hi"), ("from", Value.str "news@x.com")], none)
          content := content }
    | _ => Except.error "frontmatter: cannot read"
  yamlUnmarshal := fun raw =>
    if raw = "recipients" then (demoRecipients, none) else ([], some "yaml: cannot unmarshal")
  templateParse := demoParse
  templateExecute := demoExecute
  markdownCommon := fun body => "<p>" ++ body ++ "</p>\n"
  inlinerInline := fun html => (html, none)
  castToString := demoCast

/-- A campaign with two recipients and a literal body. -/
def demoCampaign : Campaign where
  Recipients := demoRecipients
  EmailMeta := [("subject", Value.str "Hi"), ("from", Value.str "news@x.com")]
  Email :=
    { metadata :=
        (MetaValue.mapping [("subject", Value.str "Hi"), ("from", Value.str "news@x.com")], none)
      content := "Hello" }
  tText := { name := "email", text := "Hello" }

/-- The state before a call: a new message and nothing recorded. -/
def s0 : St := { msg := NewMessage, trace := [] }

/-- A file system holding a zero-byte plain layout and nothing else. -/
def emptyLayoutFs : List (String × Entry) := [("layouts/_default.text", Entry.file "")]

/-- A file system whose stylesheet is a regular file that breaks off, with an
error, after two bytes. -/
def brokenCssFs : List (String × Entry) :=
  [("layouts/_default.css", Entry.failing "p\x7b" "read layouts/_default.css: input/output error")]

/-! ## Runs of the functions -/

theorem len_eq_zero_iff (s : String) : len s = 0 ↔ s = "" := by
  cases s with
  | mk cs =>
    cases cs with
    | nil => simp [len, String.utf8ByteSize, String.utf8ByteSize.go]
    | cons c cs =>
      have hpos := Char.utf8Size_pos c
      have hne : (String.mk (c :: cs)) ≠ "" := by
        intro h
        have := congrArg String.data h
        simp at this
      simp only [len, String.utf8ByteSize, String.utf8ByteSize.go, hne, iff_false]
      omega

theorem len_beq_zero (s : String) : (len s == 0) = decide (s = "") := by
  by_cases h : s = ""
  · subst h; decide
  · have : len s ≠ 0 := fun h0 => h ((len_eq_zero_iff s).1 h0)
    simp [h, this]

theorem St.log_msg (s : St) (evs : List Event) : (s.log evs).msg = s.msg := rfl

theorem St.log_trace (s : St) (evs : List Event) : (s.log evs).trace = s.trace ++ evs := rfl

theorem St.log_log (s : St) (e1 e2 : List Event) : (s.log e1).log e2 = s.log (e1 ++ e2) := by
  simp [St.log, List.append_assoc]

/-- The run of `renderIntoLayout` when the layout path is a regular file. -/
theorem renderIntoLayout_file (E : Env) (body path dflt : String) (ctx : tmplContext) (s : St)
    (h : isFile (E.fsStat path) = true) :
    renderIntoLayout E body path dflt ctx s =
      match E.fsReadFile path with
      | (_, some err) =>
        (Outcome.ret ("", some err), s.log [Event.stat path, Event.readFile path])
      | (layout, none) =>
        match E.templateParse "layout" layout with
        | some err =>
          (Outcome.ret ("", some err),
            s.log [Event.stat path, Event.readFile path, Event.parse "layout" layout])
        | none =>
          (Outcome.ret (E.templateExecute ⟨"layout", layout⟩ { ctx with Content := body }),
            s.log [Event.stat path, Event.readFile path, Event.parse "layout" layout,
              Event.execute ⟨"layout", layout⟩ { ctx with Content := body }]) := by
  rcases hr : E.fsReadFile path with ⟨layout, _ | err⟩
  · rcases hp : E.templateParse "layout" layout with _ | perr <;>
      simp [renderIntoLayout, Stat, ReadFile, Parse, Execute, bind, Go.bind, emit, pure, Go.pure,
        St.log, h, hr, hp]
  · simp [renderIntoLayout, Stat, ReadFile, Parse, Execute, bind, Go.bind, emit, pure, Go.pure,
      St.log, h, hr]

/-- The run of `renderIntoLayout` when the layout path is missing or a directory. -/
theorem renderIntoLayout_nofile (E : Env) (body path dflt : String) (ctx : tmplContext) (s : St)
    (h : isFile (E.fsStat path) = false) :
    renderIntoLayout E body path dflt ctx s =
      if dflt = "" then (Outcome.ret (body, none), s.log [Event.stat path])
      else
        match E.templateParse "layout" dflt with
        | some err =>
          (Outcome.ret ("", some err), s.log [Event.stat path, Event.parse "layout" dflt])
        | none =>
          (Outcome.ret (E.templateExecute ⟨"layout", dflt⟩ { ctx with Content := body }),
            s.log [Event.stat path, Event.parse "layout" dflt,
              Event.execute ⟨"layout", dflt⟩ { ctx with Content := body }]) := by
  by_cases hd : dflt = ""
  · simp [renderIntoLayout, Stat, bind, Go.bind, emit, pure, Go.pure, St.log, h, hd, len_beq_zero]
  · rcases hp : E.templateParse "layout" dflt with _ | perr <;>
      simp [renderIntoLayout, Stat, Parse, Execute, bind, Go.bind, emit, pure, Go.pure,
        St.log, h, hd, hp, len_beq_zero]

/-- Every run of `renderIntoLayout` returns, leaves the message alone, and
executes templates only on the caller's context with `Content` set to the body;
it calls neither the Markdown converter nor the CSS inliner. -/
theorem renderIntoLayout_returns (E : Env) (body path dflt : String) (ctx : tmplContext) (s : St) :
    ∃ r evs, renderIntoLayout E body path dflt ctx s = (Outcome.ret r, s.log evs) ∧
      (∀ t k, Event.execute t k ∈ evs → k = { ctx with Content := body }) ∧
      (∀ e ∈ evs, (∃ p, e = Event.stat p) ∨ (∃ p, e = Event.readFile p) ∨
        (∃ n x, e = Event.parse n x) ∨ (∃ t k, e = Event.execute t k)) := by
  cases h : isFile (E.fsStat path)
  · rw [renderIntoLayout_nofile E body path dflt ctx s h]
    by_cases hd : dflt = ""
    · rw [if_pos hd]
      exact ⟨_, _, rfl, by simp, by simp⟩
    · rw [if_neg hd]
      rcases hp : E.templateParse "layout" dflt with _ | perr
      · exact ⟨_, _, rfl, by simp, by simp⟩
      · exact ⟨_, _, rfl, by simp, by simp⟩
  · rw [renderIntoLayout_file E body path dflt ctx s h]
    rcases hr : E.fsReadFile path with ⟨layout, _ | err⟩
    · rcases hp : E.templateParse "layout" layout with _ | perr
      · simp only [hp]
        exact ⟨_, _, rfl, by simp, by simp⟩
      · simp only [hp]
        exact ⟨_, _, rfl, by simp, by simp⟩
    · exact ⟨_, _, rfl, by simp, by simp⟩

/-- The run of `renderHTML` in terms of the run of `renderIntoLayout`. -/
theorem renderHTML_run (E : Env) (body path : String) (ctx : tmplContext) (s : St) :
    renderHTML E body path ctx s =
      match renderIntoLayout E (E.markdownCommon body) path defaultHTMLLayout ctx
          (s.log [Event.markdown body]) with
      | (Outcome.panic r, s1) => (Outcome.panic r, s1)
      | (Outcome.ret (_, some err), s1) => (Outcome.ret ("", some err), s1)
      | (Outcome.ret (html, none), s1) =>
        (Outcome.ret (E.inlinerInline html), s1.log [Event.inlineCss html]) := by
  simp only [renderHTML, MarkdownCommon, Inline, bind, Go.bind, emit, pure, Go.pure, St.log]
  rcases renderIntoLayout E (E.markdownCommon body) path defaultHTMLLayout ctx
      { msg := s.msg, trace := s.trace ++ [Event.markdown body] } with ⟨_ | _, s1⟩
  · rename_i a
    rcases a with ⟨html, _ | err⟩ <;> simp [Go.bind, Go.pure, emit]
  · simp

/-- Every run of `renderHTML` returns, leaves the message alone, and executes
templates only on the caller's context with `Content` set to the converted
body. -/
theorem renderHTML_returns (E : Env) (body path : String) (ctx : tmplContext) (s : St) :
    ∃ r evs, renderHTML E body path ctx s = (Outcome.ret r, s.log evs) ∧
      (∀ t k, Event.execute t k ∈ evs → k = { ctx with Content := E.markdownCommon body }) := by
  obtain ⟨r, evs, hrun, hex, _⟩ :=
    renderIntoLayout_returns E (E.markdownCommon body) path defaultHTMLLayout ctx
      (s.log [Event.markdown body])
  rw [renderHTML_run, hrun]
  rcases r with ⟨html, _ | err⟩
  · refine ⟨E.inlinerInline html, Event.markdown body :: (evs ++ [Event.inlineCss html]), ?_, ?_⟩
    · simp [St.log]
    · intro t k hk
      simp at hk
      exact hex t k hk
  · refine ⟨("", some err), Event.markdown body :: evs, ?_, ?_⟩
    · simp [St.log]
    · intro t k hk
      simp at hk
      exact hex t k hk

theorem sliceIndex_in {α : Type} (xs : List α) (i : Int) (w : α) (s : St)
    (hi : 0 ≤ i) (hw : xs[i.toNat]? = some w) :
    sliceIndex xs i s = (Outcome.ret w, s) := by
  have hlt : i.toNat < xs.length := by
    rcases List.getElem?_eq_some.1 hw with ⟨h, _⟩
    exact h
  have hget : xs[i.toNat] = w := by
    rcases List.getElem?_eq_some.1 hw with ⟨h, he⟩
    exact he
  simp [sliceIndex, hi, hlt, Go.pure, hget]

theorem sliceIndex_out {α : Type} (xs : List α) (i : Int) (s : St)
    (h : ¬ (0 ≤ i ∧ i < xs.length)) :
    sliceIndex xs i s = (Outcome.panic "runtime error: index out of range", s) := by
  have h2 : ¬ (0 ≤ i ∧ i.toNat < xs.length) := by
    intro ⟨h0, h1⟩
    apply h
    refine ⟨h0, ?_⟩
    omega
  simp [sliceIndex, h2, goPanic]

theorem run_bind {α β : Type} (m : Go α) (f : α → Go β) (s : St) :
    (m >>= f) s = match m s with
      | (Outcome.ret a, s1) => f a s1
      | (Outcome.panic r, s1) => (Outcome.panic r, s1) := rfl

theorem run_pure {α : Type} (a : α) (s : St) : (pure a : Go α) s = (Outcome.ret a, s) := rfl

theorem run_ite {α : Type} (b : Prop) [Decidable b] (m1 m2 : Go α) (s : St) :
    (if b then m1 else m2) s = if b then m1 s else m2 s := by
  split <;> rfl

theorem run_emit (e : Event) (s : St) : emit e s = (Outcome.ret (), s.log [e]) := rfl

theorem run_onMsg (f : Message → Message) (s : St) :
    onMsg f s = (Outcome.ret (), { s with msg := f s.msg }) := rfl

/-- The run of `renderMessage` at an index in range, stage by stage. -/
theorem renderMessage_run (E : Env) (c : Campaign) (i : Int) (w : AttrMap) (s : St)
    (hi : 0 ≤ i) (hw : c.Recipients[i.toNat]? = some w) :
    renderMessage E c i s =
      match E.templateExecute c.tText (bodyCtx c w) with
      | (_, some err) => (Outcome.ret (some err), s.log [Event.execute c.tText (bodyCtx c w)])
      | (content, none) =>
        match renderPlain E content (tLayoutFile E) (layoutCtx E c w)
            (s.log (Event.execute c.tText (bodyCtx c w) :: cssEvents E)) with
        | (Outcome.panic r, s3) => (Outcome.panic r, s3)
        | (Outcome.ret (_, some err), s3) => (Outcome.ret (some err), s3)
        | (Outcome.ret (plainBody, none), s3) =>
          match renderHTML E content (hLayoutFile E) (layoutCtx E c w) s3 with
          | (Outcome.panic r, s4) => (Outcome.panic r, s4)
          | (Outcome.ret (_, some err), s4) => (Outcome.ret (some err), s4)
          | (Outcome.ret (htmlBody, none), s4) =>
            (Outcome.ret none, { s4 with msg := assembled E c w plainBody htmlBody }) := by
  have hidx := sliceIndex_in c.Recipients i w s hi hw
  have hset : ∀ (m : Message) (p h : String),
      ((((((m.Reset).SetAddressHeader "To" (E.castToString (w.index "email"))
        (E.castToString (w.index "username"))).SetHeader "From"
        [E.castToString (c.EmailMeta.index "from")]).SetHeader "Subject"
        [E.castToString (c.EmailMeta.index "subject")]).SetBody "text/plain" p).AddAlternative
        "text/html" h) = assembled E c w p h := by
    intro m p h
    simp [Message.Reset, Message.SetAddressHeader, Message.SetHeader, Message.SetBody,
      Message.AddAlternative, setField, assembled]
  have hb0 : E.templateExecute c.tText
      { User := w, Campaign := c.EmailMeta, CssContent := "", Content := "" } =
      E.templateExecute c.tText (bodyCtx c w) := rfl
  rcases hb : E.templateExecute c.tText (bodyCtx c w) with ⟨content, _ | berr⟩
  · cases hf : isFile (E.fsStat (cssFile E))
    · simp only [renderMessage, run_bind, run_pure, run_ite, run_emit, run_onMsg, hidx, Execute,
        Stat, ReadFile, hb0, hb, hf, layoutCtx, cssContent, cssEvents, St.log_log]
      simp only [Option.isSome_none, Bool.false_eq_true, if_false, List.singleton_append,
        List.cons_append, List.nil_append, bodyCtx]
      rcases renderPlain E content (tLayoutFile E)
        { User := w, Campaign := c.EmailMeta, CssContent := "", Content := "" }
        (s.log [Event.execute c.tText
          { User := w, Campaign := c.EmailMeta, CssContent := "", Content := "" },
          Event.stat (cssFile E)]) with ⟨_ | _, s3⟩
      · rename_i a
        rcases a with ⟨plainBody, _ | perr⟩
        · simp only [Option.isSome_none, Bool.false_eq_true, if_false]
          rcases renderHTML E content (hLayoutFile E)
            { User := w, Campaign := c.EmailMeta, CssContent := "", Content := "" } s3
            with ⟨_ | _, s4⟩
          · rename_i b
            rcases b with ⟨htmlBody, _ | herr⟩
            · simp [hset]
            · simp
          · simp
        · simp
      · simp
    · simp only [renderMessage, run_bind, run_pure, run_ite, run_emit, run_onMsg, hidx, Execute,
        Stat, ReadFile, hb0, hb, hf, layoutCtx, cssContent, cssEvents, St.log_log]
      simp only [Option.isSome_none, Bool.false_eq_true, if_false, if_true, List.singleton_append,
        List.cons_append, List.nil_append, bodyCtx]
      rcases renderPlain E content (tLayoutFile E)
        { User := w, Campaign := c.EmailMeta, CssContent := (E.fsReadFile (cssFile E)).1,
          Content := "" }
        (s.log [Event.execute c.tText
          { User := w, Campaign := c.EmailMeta, CssContent := "", Content := "" },
          Event.stat (cssFile E), Event.readFile (cssFile E)]) with ⟨_ | _, s3⟩
      · rename_i a
        rcases a with ⟨plainBody, _ | perr⟩
        · simp only [Option.isSome_none, Bool.false_eq_true, if_false]
          rcases renderHTML E content (hLayoutFile E)
            { User := w, Campaign := c.EmailMeta, CssContent := (E.fsReadFile (cssFile E)).1,
              Content := "" } s3
            with ⟨_ | _, s4⟩
          · rename_i b
            rcases b with ⟨htmlBody, _ | herr⟩
            · simp [hset]
            · simp
          · simp
        · simp
      · simp
  · simp only [renderMessage, run_bind, run_pure, run_ite, run_emit, hidx, Execute, hb0, hb]
    simp [bodyCtx]

/-- Every run of `renderPlain` returns, leaves the message alone, and calls
only `Stat`, `ReadFile`, `Parse` and `Execute`, the last on the caller's
context with `Content` set to the body. -/
theorem renderPlain_returns (E : Env) (body path : String) (ctx : tmplContext) (s : St) :
    ∃ r evs, renderPlain E body path ctx s = (Outcome.ret r, s.log evs) ∧
      (∀ t k, Event.execute t k ∈ evs → k = { ctx with Content := body }) ∧
      (∀ e ∈ evs, (∃ p, e = Event.stat p) ∨ (∃ p, e = Event.readFile p) ∨
        (∃ n x, e = Event.parse n x) ∨ (∃ t k, e = Event.execute t k)) :=
  renderIntoLayout_returns E body path "" ctx s

/-- The run of `MessageFor` in terms of the run of `renderMessage` on a new
message. -/
theorem MessageFor_run (E : Env) (c : Campaign) (i : Int) (s : St) :
    MessageFor E c i s =
      match renderMessage E c i { s with msg := NewMessage } with
      | (Outcome.ret err, s1) => (Outcome.ret (s1.msg, err), s1)
      | (Outcome.panic r, s1) => (Outcome.panic r, s1) := by
  simp only [MessageFor, run_bind, run_pure, run_onMsg]
  rcases renderMessage E c i { s with msg := NewMessage } with ⟨_ | _, s1⟩ <;> rfl

/-- At an index in range `renderMessage` returns; the message is the one it was
given whenever an error comes back; the trace only grows. -/
theorem renderMessage_returns (E : Env) (c : Campaign) (i : Int) (w : AttrMap) (s : St)
    (hi : 0 ≤ i) (hw : c.Recipients[i.toNat]? = some w) :
    ∃ err s1, renderMessage E c i s = (Outcome.ret err, s1) ∧
      (err ≠ none → s1.msg = s.msg) := by
  rw [renderMessage_run E c i w s hi hw]
  rcases hb : E.templateExecute c.tText (bodyCtx c w) with ⟨content, _ | berr⟩
  · simp only
    obtain ⟨rp, evp, hp, _, _⟩ := renderPlain_returns E content (tLayoutFile E) (layoutCtx E c w)
      (s.log (Event.execute c.tText (bodyCtx c w) :: cssEvents E))
    rw [hp]
    rcases rp with ⟨plainBody, _ | perr⟩
    · simp only
      obtain ⟨rh, evh, hh, _⟩ := renderHTML_returns E content (hLayoutFile E) (layoutCtx E c w)
        ((s.log (Event.execute c.tText (bodyCtx c w) :: cssEvents E)).log evp)
      rw [hh]
      rcases rh with ⟨htmlBody, _ | herr⟩
      · exact ⟨_, _, rfl, fun h => absurd rfl h⟩
      · exact ⟨_, _, rfl, fun _ => rfl⟩
    · exact ⟨_, _, rfl, fun _ => rfl⟩
  · exact ⟨_, _, rfl, fun _ => rfl⟩

/-! ## The layout composer -/

/-- C1, as stated, fails.  With a zero-byte file at the layout path and an
empty default the resolved layout is empty, yet `renderIntoLayout` parses and
executes the empty template and returns the empty string, not the content. -/
theorem renderIntoLayout_empty_file_counterexample :
    isFile ((demoEnv emptyLayoutFs).fsStat "layouts/_default.text") = true ∧
    resolvedLayout (demoEnv emptyLayoutFs) "layouts/_default.text" "" = "" ∧
    renderIntoLayout (demoEnv emptyLayoutFs) "Hello" "layouts/_default.text" ""
        (bodyCtx demoCampaign []) s0 =
      (Outcome.ret ("", none),
        s0.log [Event.stat "layouts/_default.text", Event.readFile "layouts/_default.text",
          Event.parse "layout" "",
          Event.execute { name := "layout", text := "" }
            { User := [], Campaign := demoCampaign.EmailMeta, CssContent := "",
              Content := "Hello" }]) ∧
    (renderIntoLayout (demoEnv emptyLayoutFs) "Hello" "layouts/_default.text" ""
        (bodyCtx demoCampaign []) s0).1 ≠ Outcome.ret ("Hello", none) := by
  decide

/-- C1, amended.  When the layout path is missing or a directory and the
default layout is empty, `renderIntoLayout` returns the content unchanged and
no error, after the one `Stat`.  When the layout path is a regular file that is
read without error, its bytes, zero of them included, are parsed and executed
as the layout: the result is the parse error, or what executing that template
on the context with `Content` set gives. -/
theorem renderIntoLayout_empty_layout (E : Env) (body path dflt : String) (ctx : tmplContext)
    (s : St) :
    (isFile (E.fsStat path) = false → dflt = "" →
      renderIntoLayout E body path dflt ctx s =
        (Outcome.ret (body, none), s.log [Event.stat path])) ∧
    (∀ layout, isFile (E.fsStat path) = true → E.fsReadFile path = (layout, none) →
      (renderIntoLayout E body path dflt ctx s).1 =
        match E.templateParse "layout" layout with
        | some err => Outcome.ret ("", some err)
        | none =>
          Outcome.ret (E.templateExecute { name := "layout", text := layout }
            { ctx with Content := body })) := by
  constructor
  · intro h hd
    rw [renderIntoLayout_nofile E body path dflt ctx s h, if_pos hd]
  · intro layout h hr
    rw [renderIntoLayout_file E body path dflt ctx s h, hr]
    rcases hp : E.templateParse "layout" layout with _ | perr <;> simp only [hp]

/-- C1, amended, at work: no plain layout gives the content back; a zero-byte
plain layout gives the output of the empty template. -/
theorem renderIntoLayout_empty_layout_witness :
    renderIntoLayout (demoEnv []) "Hello" "layouts/_default.text" "" (bodyCtx demoCampaign []) s0 =
      (Outcome.ret ("Hello", none), s0.log [Event.stat "layouts/_default.text"]) ∧
    (renderIntoLayout (demoEnv emptyLayoutFs) "Hello" "layouts/_default.text" ""
        (bodyCtx demoCampaign []) s0).1 = Outcome.ret ("", none) :=
  ⟨(renderIntoLayout_empty_layout (demoEnv []) "Hello" "layouts/_default.text" ""
      (bodyCtx demoCampaign []) s0).1 (by decide) rfl,
   (renderIntoLayout_empty_layout (demoEnv emptyLayoutFs) "Hello" "layouts/_default.text" ""
      (bodyCtx demoCampaign []) s0).2 "" (by decide) (by decide)⟩

/-- C7.  `renderIntoLayout` returns the empty string and the error when the
layout path is a regular file whose read fails, and when the layout it settled
on does not parse.  A path that is missing or a directory is no error: after
the one `Stat`, and without any read, the content comes back unchanged for an
empty default, and a non-empty default is parsed and executed. -/
theorem renderIntoLayout_errors (E : Env) (body path dflt : String) (ctx : tmplContext)
    (s : St) :
    (∀ bytes err, isFile (E.fsStat path) = true → E.fsReadFile path = (bytes, some err) →
      renderIntoLayout E body path dflt ctx s =
        (Outcome.ret ("", some err), s.log [Event.stat path, Event.readFile path])) ∧
    (∀ layout err, isFile (E.fsStat path) = true → E.fsReadFile path = (layout, none) →
      E.templateParse "layout" layout = some err →
      renderIntoLayout E body path dflt ctx s =
        (Outcome.ret ("", some err),
          s.log [Event.stat path, Event.readFile path, Event.parse "layout" layout])) ∧
    (∀ err, isFile (E.fsStat path) = false → dflt ≠ "" →
      E.templateParse "layout" dflt = some err →
      renderIntoLayout E body path dflt ctx s =
        (Outcome.ret ("", some err), s.log [Event.stat path, Event.parse "layout" dflt])) ∧
    (isFile (E.fsStat path) = false → dflt = "" →
      renderIntoLayout E body path dflt ctx s =
        (Outcome.ret (body, none), s.log [Event.stat path])) ∧
    (isFile (E.fsStat path) = false → dflt ≠ "" → E.templateParse "layout" dflt = none →
      renderIntoLayout E body path dflt ctx s =
        (Outcome.ret (E.templateExecute { name := "layout", text := dflt }
            { ctx with Content := body }),
          s.log [Event.stat path, Event.parse "layout" dflt,
            Event.execute { name := "layout", text := dflt } { ctx with Content := body }])) := by
  refine ⟨?_, ?_, ?_, ?_, ?_⟩
  · intro bytes err h hr
    rw [renderIntoLayout_file E body path dflt ctx s h, hr]
  · intro layout err h hr hp
    rw [renderIntoLayout_file E body path dflt ctx s h, hr]
    simp [hp]
  · intro err h hd hp
    rw [renderIntoLayout_nofile E body path dflt ctx s h, if_neg hd, hp]
  · intro h hd
    rw [renderIntoLayout_nofile E body path dflt ctx s h, if_pos hd]
  · intro h hd hp
    rw [renderIntoLayout_nofile E body path dflt ctx s h, if_neg hd, hp]

/-- C7 at work: a layout whose read breaks off, a layout that does not parse, a
default that does not parse, a missing layout with an empty default, and a
missing layout with the default HTML wrapper. -/
theorem renderIntoLayout_errors_witness :
    renderIntoLayout (demoEnv [("l", Entry.failing "x" "input/output error")]) "Hello" "l" ""
        (bodyCtx demoCampaign []) s0 =
      (Outcome.ret ("", some "input/output error"),
        s0.log [Event.stat "l", Event.readFile "l"]) ∧
    renderIntoLayout (demoEnv [("l", Entry.file "\x7b\x7b")]) "Hello" "l" ""
        (bodyCtx demoCampaign []) s0 =
      (Outcome.ret ("", some "template: layout: unexpected action"),
        s0.log [Event.stat "l", Event.readFile "l", Event.parse "layout" "\x7b\x7b"]) ∧
    renderIntoLayout (demoEnv [("l", Entry.dir)]) "Hello" "l" "\x7b\x7b"
        (bodyCtx demoCampaign []) s0 =
      (Outcome.ret ("", some "template: layout: unexpected action"),
        s0.log [Event.stat "l", Event.parse "layout" "\x7b\x7b"]) ∧
    renderIntoLayout (demoEnv [("l", Entry.dir)]) "Hello" "l" ""
        (bodyCtx demoCampaign []) s0 =
      (Outcome.ret ("Hello", none), s0.log [Event.stat "l"]) ∧
    renderIntoLayout (demoEnv []) "Hello" "l" defaultHTMLLayout (bodyCtx demoCampaign []) s0 =
      (Outcome.ret ((demoEnv []).templateExecute { name := "layout", text := defaultHTMLLayout }
          { bodyCtx demoCampaign [] with Content := "Hello" }),
        s0.log [Event.stat "l", Event.parse "layout" defaultHTMLLayout,
          Event.execute { name := "layout", text := defaultHTMLLayout }
            { bodyCtx demoCampaign [] with Content := "Hello" }]) :=
  ⟨(renderIntoLayout_errors (demoEnv [("l", Entry.failing "x" "input/output error")]) "Hello" "l" ""
      (bodyCtx demoCampaign []) s0).1 "x" "input/output error" (by decide) (by decide),
   (renderIntoLayout_errors (demoEnv [("l", Entry.file "\x7b\x7b")]) "Hello" "l" ""
      (bodyCtx demoCampaign []) s0).2.1 "\x7b\x7b" "template: layout: unexpected action"
      (by decide) (by decide) (by decide),
   (renderIntoLayout_errors (demoEnv [("l", Entry.dir)]) "Hello" "l" "\x7b\x7b"
      (bodyCtx demoCampaign []) s0).2.2.1 "template: layout: unexpected action"
      (by decide) (by decide) (by decide),
   (renderIntoLayout_errors (demoEnv [("l", Entry.dir)]) "Hello" "l" ""
      (bodyCtx demoCampaign []) s0).2.2.2.1 (by decide) rfl,
   (renderIntoLayout_errors (demoEnv []) "Hello" "l" defaultHTMLLayout
      (bodyCtx demoCampaign []) s0).2.2.2.2 (by decide) (by decide) (by decide)⟩

/-- C3.  When no HTML layout file exists at the path (`Stat` fails or the path
is a directory), `renderHTML` converts the body with Markdown, wraps it as
`<html><body>…</body></html>` and returns what the CSS inliner makes of the
wrapped document; the calls are, in order, the conversion, the `Stat`, the
parse and execution of the default layout, and the inliner. -/
theorem renderHTML_default_wrapper (E : Env) (body path : String) (ctx : tmplContext) (s : St)
    (hE : RendersDefaultLayout E) (hno : isFile (E.fsStat path) = false) :
    renderHTML E body path ctx s =
      (Outcome.ret (E.inlinerInline ("<html><body>" ++ E.markdownCommon body ++ "</body></html>")),
        s.log [Event.markdown body, Event.stat path, Event.parse "layout" defaultHTMLLayout,
          Event.execute { name := "layout", text := defaultHTMLLayout }
            { ctx with Content := E.markdownCommon body },
          Event.inlineCss ("<html><body>" ++ E.markdownCommon body ++ "</body></html>")]) := by
  have hd : defaultHTMLLayout ≠ "" := by decide
  rw [renderHTML_run, renderIntoLayout_nofile E _ path _ ctx _ hno, if_neg hd, hE.1, hE.2]
  simp [St.log]

theorem demoEnv_rendersDefaultLayout (fs : List (String × Entry)) :
    RendersDefaultLayout (demoEnv fs) := by
  refine ⟨rfl, ?_⟩
  intro ctx
  rcases ctx with ⟨u, c, css, ⟨content⟩⟩
  rfl

/-- C3 at work, with no layout directory at all. -/
theorem renderHTML_default_wrapper_witness :
    (renderHTML (demoEnv []) "Hello" "layouts/_default.html" (bodyCtx demoCampaign []) s0).1 =
      Outcome.ret ("<html><body><p>Hello</p>\n</body></html>", none) :=
  congrArg Prod.fst
    (renderHTML_default_wrapper (demoEnv []) "Hello" "layouts/_default.html"
      (bodyCtx demoCampaign []) s0 (demoEnv_rendersDefaultLayout []) (by decide))

/-! ## Rendering one message -/

/-- C2.  At an index in range, when the render succeeds and no plain layout
file exists (`Stat` of `_default.text` fails or finds a directory), the
text/plain body of the message is exactly the output of executing the body
template for that recipient; it is the first part, followed by the HTML
alternative. -/
theorem renderMessage_plain_passthrough (E : Env) (c : Campaign) (i : Int) (w : AttrMap) (s : St)
    (hi : 0 ≤ i) (hw : c.Recipients[i.toNat]? = some w)
    (hno : isFile (E.fsStat (tLayoutFile E)) = false)
    (hok : (renderMessage E c i s).1 = Outcome.ret none) :
    ∃ htmlBody, (renderMessage E c i s).2.msg.parts =
      [("text/plain", (E.templateExecute c.tText (bodyCtx c w)).1), ("text/html", htmlBody)] := by
  rw [renderMessage_run E c i w s hi hw] at hok ⊢
  rcases hb : E.templateExecute c.tText (bodyCtx c w) with ⟨content, _ | berr⟩
  · have hp : renderPlain E content (tLayoutFile E) (layoutCtx E c w)
        (s.log (Event.execute c.tText (bodyCtx c w) :: cssEvents E)) =
        (Outcome.ret (content, none),
          (s.log (Event.execute c.tText (bodyCtx c w) :: cssEvents E)).log
            [Event.stat (tLayoutFile E)]) := by
      unfold renderPlain
      rw [renderIntoLayout_nofile E content (tLayoutFile E) "" _ _ hno, if_pos rfl]
    simp only [hb, hp] at hok ⊢
    obtain ⟨rh, evh, hh, _⟩ := renderHTML_returns E content (hLayoutFile E) (layoutCtx E c w)
      ((s.log (Event.execute c.tText (bodyCtx c w) :: cssEvents E)).log
        [Event.stat (tLayoutFile E)])
    rw [hh] at hok ⊢
    rcases rh with ⟨htmlBody, _ | herr⟩
    · exact ⟨htmlBody, rfl⟩
    · simp at hok
  · simp [hb] at hok

/-- C2 at work: the first recipient, no layout directory. -/
theorem renderMessage_plain_passthrough_witness :
    ∃ htmlBody, (renderMessage (demoEnv []) demoCampaign 0 s0).2.msg.parts =
      [("text/plain", ((demoEnv []).templateExecute demoCampaign.tText
          (bodyCtx demoCampaign [("email", Value.str "a@x.com"), ("username", Value.str "A")])).1),
       ("text/html", htmlBody)] :=
  renderMessage_plain_passthrough (demoEnv []) demoCampaign 0
    [("email", Value.str "a@x.com"), ("username", Value.str "A")] s0
    (by decide) (by decide) (by decide) (by decide)

/-- C4.  `MessageFor` at the index `len(c.Recipients)` panics with Go's index
error, returns nothing, and has made no call; the new message is as created.
The lookup of the recipient succeeds exactly for `0 ≤ i < len(c.Recipients)`,
`renderMessage` returns exactly for those `i`, and for any other `i` it panics
in the state it was called in: nothing executed, nothing read, the message
untouched. -/
theorem MessageFor_index_bounds (E : Env) (c : Campaign) (s : St) :
    MessageFor E c c.Recipients.length s =
      (Outcome.panic "runtime error: index out of range", { s with msg := NewMessage }) ∧
    (∀ i : Int, (∃ w, sliceIndex c.Recipients i s = (Outcome.ret w, s)) ↔
      (0 ≤ i ∧ i < c.Recipients.length)) ∧
    (∀ i : Int, (∃ err s1, renderMessage E c i s = (Outcome.ret err, s1)) ↔
      (0 ≤ i ∧ i < c.Recipients.length)) ∧
    (∀ i : Int, ¬ (0 ≤ i ∧ i < c.Recipients.length) →
      renderMessage E c i s = (Outcome.panic "runtime error: index out of range", s)) := by
  have hout : ∀ (i : Int) (s : St), ¬ (0 ≤ i ∧ i < c.Recipients.length) →
      renderMessage E c i s = (Outcome.panic "runtime error: index out of range", s) := by
    intro i s h
    simp only [renderMessage, run_bind, sliceIndex_out c.Recipients i s h]
  have hin : ∀ i : Int, 0 ≤ i ∧ i < c.Recipients.length →
      ∃ w, c.Recipients[i.toNat]? = some w := by
    intro i ⟨h0, h1⟩
    have hlt : i.toNat < c.Recipients.length := by omega
    exact ⟨c.Recipients[i.toNat], List.getElem?_eq_getElem hlt⟩
  refine ⟨?_, ?_, ?_, fun i h => hout i s h⟩
  · rw [MessageFor_run, hout _ _ (by omega)]
  · intro i
    constructor
    · rintro ⟨w, h⟩
      by_contra hn
      rw [sliceIndex_out c.Recipients i s hn] at h
      simp at h
    · intro h
      obtain ⟨w, hw⟩ := hin i h
      exact ⟨w, sliceIndex_in c.Recipients i w s h.1 hw⟩
  · intro i
    constructor
    · rintro ⟨err, s1, h⟩
      by_contra hn
      rw [hout i s hn] at h
      simp at h
    · intro h
      obtain ⟨w, hw⟩ := hin i h
      obtain ⟨err, s1, hr, _⟩ := renderMessage_returns E c i w s h.1 hw
      exact ⟨err, s1, hr⟩

/-- C4 at work: two recipients, index `2` and index `-1`. -/
theorem MessageFor_index_bounds_witness :
    MessageFor (demoEnv []) demoCampaign 2 s0 =
      (Outcome.panic "runtime error: index out of range", s0) ∧
    renderMessage (demoEnv []) demoCampaign (-1) s0 =
      (Outcome.panic "runtime error: index out of range", s0) :=
  ⟨(MessageFor_index_bounds (demoEnv []) demoCampaign s0).1,
   (MessageFor_index_bounds (demoEnv []) demoCampaign s0).2.2.2 (-1) (by decide)⟩

/-- C5, as stated, fails.  The stylesheet is a regular file whose read breaks
off with an error after the bytes `p{`: the render succeeds, and the HTML layout
is executed with `CssContent` equal to `p{`, not the empty string. -/
theorem renderMessage_stylesheet_counterexample :
    isFile ((demoEnv brokenCssFs).fsStat (cssFile (demoEnv brokenCssFs))) = true ∧
    (demoEnv brokenCssFs).fsReadFile (cssFile (demoEnv brokenCssFs)) =
      ("p\x7b", some "read layouts/_default.css: input/output error") ∧
    (renderMessage (demoEnv brokenCssFs) demoCampaign 0 s0).1 = Outcome.ret none ∧
    Event.execute { name := "layout", text := defaultHTMLLayout }
        { User := [("email", Value.str "a@x.com"), ("username", Value.str "A")],
          Campaign := demoCampaign.EmailMeta, CssContent := "p\x7b", Content := "<p>Hello</p>\n" } ∈
      (renderMessage (demoEnv brokenCssFs) demoCampaign 0 s0).2.trace := by
  decide

/-- C5, amended.  At an index in range, once the body template has run without
error, the stylesheet step yields no error of its own.  With `_default.css`
missing or a directory, after the one `Stat`, `CssContent` is the empty string;
with a regular file, after `Stat` and `ReadFile`, it is the bytes `ReadFile`
returned, its error being dropped.  With that context the plain stage always
runs; `renderMessage` returns its error if it has one, else that of the HTML
stage if it has one, else no error. -/
theorem renderMessage_stylesheet (E : Env) (c : Campaign) (i : Int) (w : AttrMap) (s : St)
    (content : String) (hi : 0 ≤ i) (hw : c.Recipients[i.toNat]? = some w)
    (hb : E.templateExecute c.tText (bodyCtx c w) = (content, none)) :
    ∃ css evs,
      ((isFile (E.fsStat (cssFile E)) = false ∧ css = "" ∧ evs = [Event.stat (cssFile E)]) ∨
       (isFile (E.fsStat (cssFile E)) = true ∧ css = (E.fsReadFile (cssFile E)).1 ∧
          evs = [Event.stat (cssFile E), Event.readFile (cssFile E)])) ∧
      ∃ rp s3,
        renderPlain E content (tLayoutFile E)
            { User := w, Campaign := c.EmailMeta, CssContent := css, Content := "" }
            (s.log (Event.execute c.tText (bodyCtx c w) :: evs)) = (Outcome.ret rp, s3) ∧
        (rp.2 ≠ none → renderMessage E c i s = (Outcome.ret rp.2, s3)) ∧
        (rp.2 = none → ∃ rh s4,
          renderHTML E content (hLayoutFile E)
              { User := w, Campaign := c.EmailMeta, CssContent := css, Content := "" } s3 =
            (Outcome.ret rh, s4) ∧
          (rh.2 ≠ none → renderMessage E c i s = (Outcome.ret rh.2, s4)) ∧
          (rh.2 = none → (renderMessage E c i s).1 = Outcome.ret none)) := by
  refine ⟨cssContent E, cssEvents E, ?_, ?_⟩
  · cases hf : isFile (E.fsStat (cssFile E))
    · left
      simp [cssContent, cssEvents, hf]
    · right
      simp [cssContent, cssEvents, hf]
  · have hrun := renderMessage_run E c i w s hi hw
    rw [hb] at hrun
    simp only at hrun
    obtain ⟨rp, evp, hp, _, _⟩ := renderPlain_returns E content (tLayoutFile E) (layoutCtx E c w)
      (s.log (Event.execute c.tText (bodyCtx c w) :: cssEvents E))
    rw [hp] at hrun
    refine ⟨rp, _, hp, ?_, ?_⟩
    · intro hne
      rcases rp with ⟨plainBody, _ | perr⟩
      · exact absurd rfl hne
      · exact hrun
    · intro hnone
      rcases rp with ⟨plainBody, _ | perr⟩
      · simp only at hrun
        obtain ⟨rh, evh, hh, _⟩ := renderHTML_returns E content (hLayoutFile E)
          (layoutCtx E c w)
          ((s.log (Event.execute c.tText (bodyCtx c w) :: cssEvents E)).log evp)
        rw [hh] at hrun
        refine ⟨rh, _, hh, ?_, ?_⟩
        · intro hne
          rcases rh with ⟨htmlBody, _ | herr⟩
          · exact absurd rfl hne
          · exact hrun
        · intro hn
          rcases rh with ⟨htmlBody, _ | herr⟩
          · rw [hrun]
          · simp at hn
      · simp at hnone

/-- C5, amended, at work on the stylesheet whose read breaks off. -/
theorem renderMessage_stylesheet_witness :
    ∃ css evs,
      ((isFile ((demoEnv brokenCssFs).fsStat (cssFile (demoEnv brokenCssFs))) = false ∧ css = "" ∧
          evs = [Event.stat (cssFile (demoEnv brokenCssFs))]) ∨
       (isFile ((demoEnv brokenCssFs).fsStat (cssFile (demoEnv brokenCssFs))) = true ∧
          css = ((demoEnv brokenCssFs).fsReadFile (cssFile (demoEnv brokenCssFs))).1 ∧
          evs = [Event.stat (cssFile (demoEnv brokenCssFs)),
            Event.readFile (cssFile (demoEnv brokenCssFs))])) ∧
      ∃ rp s3,
        renderPlain (demoEnv brokenCssFs) "Hello" (tLayoutFile (demoEnv brokenCssFs))
            { User := [("email", Value.str "a@x.com"), ("username", Value.str "A")],
              Campaign := demoCampaign.EmailMeta, CssContent := css, Content := "" }
            (s0.log (Event.execute demoCampaign.tText
              (bodyCtx demoCampaign [("email", Value.str "a@x.com"), ("username", Value.str "A")])
                :: evs)) = (Outcome.ret rp, s3) ∧
        (rp.2 ≠ none → renderMessage (demoEnv brokenCssFs) demoCampaign 0 s0 =
          (Outcome.ret rp.2, s3)) ∧
        (rp.2 = none → ∃ rh s4,
          renderHTML (demoEnv brokenCssFs) "Hello" (hLayoutFile (demoEnv brokenCssFs))
              { User := [("email", Value.str "a@x.com"), ("username", Value.str "A")],
                Campaign := demoCampaign.EmailMeta, CssContent := css, Content := "" } s3 =
            (Outcome.ret rh, s4) ∧
          (rh.2 ≠ none → renderMessage (demoEnv brokenCssFs) demoCampaign 0 s0 =
            (Outcome.ret rh.2, s4)) ∧
          (rh.2 = none →
            (renderMessage (demoEnv brokenCssFs) demoCampaign 0 s0).1 = Outcome.ret none)) :=
  renderMessage_stylesheet (demoEnv brokenCssFs) demoCampaign 0
    [("email", Value.str "a@x.com"), ("username", Value.str "A")] s0 "Hello"
    (by decide) (by decide) (by decide)

/-- C8.  At an index in range: a failing body template ends `renderMessage`
with that error after the one `Execute`; otherwise a failing plain layout ends
it with that error in the state `renderPlain` left, before the Markdown
converter or the inliner is called; otherwise a failing HTML path ends it with
that error in the state `renderHTML` left.  Whenever an error comes back the
message is as it was handed in, so the one `MessageFor` returns is as
`NewMessage` made it. -/
theorem renderMessage_failure (E : Env) (c : Campaign) (i : Int) (w : AttrMap) (s : St)
    (hi : 0 ≤ i) (hw : c.Recipients[i.toNat]? = some w) :
    (∀ out err, E.templateExecute c.tText (bodyCtx c w) = (out, some err) →
      renderMessage E c i s =
        (Outcome.ret (some err), s.log [Event.execute c.tText (bodyCtx c w)])) ∧
    (∀ content out err s3, E.templateExecute c.tText (bodyCtx c w) = (content, none) →
      renderPlain E content (tLayoutFile E) (layoutCtx E c w)
          (s.log (Event.execute c.tText (bodyCtx c w) :: cssEvents E)) =
        (Outcome.ret (out, some err), s3) →
      renderMessage E c i s = (Outcome.ret (some err), s3) ∧
      ∃ evs, s3 = (s.log (Event.execute c.tText (bodyCtx c w) :: cssEvents E)).log evs ∧
        ∀ e ∈ evs, (∀ b, e ≠ Event.markdown b) ∧ (∀ h, e ≠ Event.inlineCss h)) ∧
    (∀ content plainBody out err s3 s4,
      E.templateExecute c.tText (bodyCtx c w) = (content, none) →
      renderPlain E content (tLayoutFile E) (layoutCtx E c w)
          (s.log (Event.execute c.tText (bodyCtx c w) :: cssEvents E)) =
        (Outcome.ret (plainBody, none), s3) →
      renderHTML E content (hLayoutFile E) (layoutCtx E c w) s3 =
        (Outcome.ret (out, some err), s4) →
      renderMessage E c i s = (Outcome.ret (some err), s4)) ∧
    (∀ err, (renderMessage E c i s).1 = Outcome.ret (some err) →
      (renderMessage E c i s).2.msg = s.msg) ∧
    (∀ m err, (MessageFor E c i s).1 = Outcome.ret (m, some err) → m = NewMessage) := by
  refine ⟨?_, ?_, ?_, ?_, ?_⟩
  · intro out err hb
    rw [renderMessage_run E c i w s hi hw, hb]
  · intro content out err s3 hb hp
    refine ⟨by rw [renderMessage_run E c i w s hi hw, hb]; simp only [hp], ?_⟩
    obtain ⟨r, evs, hr, _, hshape⟩ := renderPlain_returns E content (tLayoutFile E)
      (layoutCtx E c w) (s.log (Event.execute c.tText (bodyCtx c w) :: cssEvents E))
    rw [hr] at hp
    refine ⟨evs, (Prod.mk.inj hp).2.symm, ?_⟩
    intro e he
    rcases hshape e he with ⟨p, rfl⟩ | ⟨p, rfl⟩ | ⟨n, x, rfl⟩ | ⟨t, k, rfl⟩ <;> simp
  · intro content plainBody out err s3 s4 hb hp hh
    rw [renderMessage_run E c i w s hi hw, hb]
    simp only [hp, hh]
  · intro err h
    obtain ⟨e1, s1, hr, hmsg⟩ := renderMessage_returns E c i w s hi hw
    rw [hr] at h ⊢
    have he : e1 = some err := by simpa using h
    exact hmsg (by rw [he]; simp)
  · intro m err h
    rw [MessageFor_run] at h
    obtain ⟨e1, s1, hr, hmsg⟩ := renderMessage_returns E c i w { s with msg := NewMessage } hi hw
    rw [hr] at h
    simp only [Outcome.ret.injEq, Prod.mk.injEq] at h
    rw [← h.1]
    exact hmsg (by rw [h.2]; simp)

/-- C8 at work: a plain layout that does not parse; the HTML path is never
entered and the message stays new. -/
theorem renderMessage_failure_witness :
    renderMessage (demoEnv [("layouts/_default.text", Entry.file "\x7b\x7b")]) demoCampaign 0 s0 =
      (Outcome.ret (some "template: layout: unexpected action"),
        s0.log [Event.execute demoCampaign.tText
            (bodyCtx demoCampaign [("email", Value.str "a@x.com"), ("username", Value.str "A")]),
          Event.stat "layouts/_default.css", Event.stat "layouts/_default.text",
          Event.readFile "layouts/_default.text", Event.parse "layout" "\x7b\x7b"]) :=
  ((renderMessage_failure (demoEnv [("layouts/_default.text", Entry.file "\x7b\x7b")]) demoCampaign 0
      [("email", Value.str "a@x.com"), ("username", Value.str "A")] s0
      (by decide) (by decide)).2.1 "Hello" "" "template: layout: unexpected action" _
      (by decide) (by decide)).1

/-- C9.  At an index in range, when the render succeeds, the message is exactly:
the header `To` set as an address from the string values of the recipient's
`email` and `username`, the header `From` set to the string value of the
metadata's `from`, the header `Subject` set to the string value of the
metadata's `subject` as it stands, the text/plain body that `renderPlain`
returned and the one text/html alternative that `renderHTML` returned, and
nothing else.  A key that is missing is looked up as `nil`, whose string value
is empty when `cast.ToString(nil)` is. -/
theorem renderMessage_assembles (E : Env) (c : Campaign) (i : Int) (w : AttrMap) (s : St)
    (hi : 0 ≤ i) (hw : c.Recipients[i.toNat]? = some w)
    (hok : (renderMessage E c i s).1 = Outcome.ret none) :
    (∃ plainBody htmlBody s3 s4,
      renderPlain E (E.templateExecute c.tText (bodyCtx c w)).1 (tLayoutFile E) (layoutCtx E c w)
          (s.log (Event.execute c.tText (bodyCtx c w) :: cssEvents E)) =
        (Outcome.ret (plainBody, none), s3) ∧
      renderHTML E (E.templateExecute c.tText (bodyCtx c w)).1 (hLayoutFile E) (layoutCtx E c w)
          s3 = (Outcome.ret (htmlBody, none), s4) ∧
      (renderMessage E c i s).2.msg =
        { header :=
            [("To", HeaderValue.address (E.castToString (w.index "email"))
                (E.castToString (w.index "username"))),
             ("From", HeaderValue.values [E.castToString (c.EmailMeta.index "from")]),
             ("Subject", HeaderValue.values [E.castToString (c.EmailMeta.index "subject")])]
          parts := [("text/plain", plainBody), ("text/html", htmlBody)]
          attachments := []
          embedded := [] }) ∧
    (∀ (m : AttrMap) (k : String), m.lookup k = none → m.index k = Value.nil) ∧
    (E.castToString Value.nil = "" →
      ∀ (m : AttrMap) (k : String), m.lookup k = none → E.castToString (m.index k) = "") := by
  have hidx : ∀ (m : AttrMap) (k : String), m.lookup k = none → m.index k = Value.nil := by
    intro m k h
    simp [AttrMap.index, h]
  refine ⟨?_, hidx, fun hnil m k h => by rw [hidx m k h, hnil]⟩
  rw [renderMessage_run E c i w s hi hw] at hok ⊢
  rcases hb : E.templateExecute c.tText (bodyCtx c w) with ⟨content, _ | berr⟩
  · simp only [hb] at hok ⊢
    obtain ⟨rp, evp, hp, _, _⟩ := renderPlain_returns E content (tLayoutFile E) (layoutCtx E c w)
      (s.log (Event.execute c.tText (bodyCtx c w) :: cssEvents E))
    rw [hp] at hok ⊢
    rcases rp with ⟨plainBody, _ | perr⟩
    · simp only at hok ⊢
      obtain ⟨rh, evh, hh, _⟩ := renderHTML_returns E content (hLayoutFile E) (layoutCtx E c w)
        ((s.log (Event.execute c.tText (bodyCtx c w) :: cssEvents E)).log evp)
      rw [hh] at hok ⊢
      rcases rh with ⟨htmlBody, _ | herr⟩
      · exact ⟨plainBody, htmlBody, _, _, rfl, hh, rfl⟩
      · simp at hok
    · simp at hok
  · simp [hb] at hok

/-- C9 at work: the second recipient has no `username`, so the display name is
the empty string. -/
theorem renderMessage_assembles_witness :
    (renderMessage (demoEnv []) demoCampaign 1 s0).2.msg =
      { header :=
          [("To", HeaderValue.address "b@x.com" ""),
           ("From", HeaderValue.values ["news@x.com"]),
           ("Subject", HeaderValue.values ["Hi"])]
        parts := [("text/plain", "Hello"), ("text/html", "<html><body><p>Hello</p>\n</body></html>")]
        attachments := []
        embedded := [] } ∧
    (demoEnv []).castToString (AttrMap.index [("email", Value.str "b@x.com")] "username") = "" := by
  have h := renderMessage_assembles (demoEnv []) demoCampaign 1 [("email", Value.str "b@x.com")] s0
    (by decide) (by decide) (by decide)
  exact ⟨by decide, h.2.2 rfl _ "username" (by decide)⟩

/-- C10.  Any call of `renderIntoLayout` executes templates only on a context
whose `Content` is the fragment being wrapped and whose `User`, `Campaign` and
`CssContent` are the caller's.  In a render at an index in range the first call
is the execution of the body template on a context with empty `Content` (and
empty `CssContent`); the calls that follow are those of the stylesheet step,
then those of `renderPlain`, then those of `renderHTML`, both called on the
same context with empty `Content`; every template executed in the plain stage
sees the body text as `Content`, every template executed in the HTML stage sees
the converted body, never what the plain stage had set. -/
theorem render_contexts (E : Env) (c : Campaign) (i : Int) (w : AttrMap) (s : St)
    (hi : 0 ≤ i) (hw : c.Recipients[i.toNat]? = some w) :
    (∀ (body path dflt : String) (ctx : tmplContext) (st : St),
      ∃ r evs, renderIntoLayout E body path dflt ctx st = (Outcome.ret r, st.log evs) ∧
        ∀ t k, Event.execute t k ∈ evs →
          k.Content = body ∧ k.User = ctx.User ∧ k.Campaign = ctx.Campaign ∧
            k.CssContent = ctx.CssContent) ∧
    (∃ css evsC evsP evsH,
      (renderMessage E c i s).2.trace =
        s.trace ++
          Event.execute c.tText { User := w, Campaign := c.EmailMeta, CssContent := "", Content := "" }
            :: (evsC ++ (evsP ++ evsH)) ∧
      (∀ t k, Event.execute t k ∉ evsC) ∧
      (evsP = [] ∨ ∃ r st,
        renderPlain E (E.templateExecute c.tText (bodyCtx c w)).1 (tLayoutFile E)
          { User := w, Campaign := c.EmailMeta, CssContent := css, Content := "" } st =
            (Outcome.ret r, st.log evsP)) ∧
      (evsH = [] ∨ ∃ r st,
        renderHTML E (E.templateExecute c.tText (bodyCtx c w)).1 (hLayoutFile E)
          { User := w, Campaign := c.EmailMeta, CssContent := css, Content := "" } st =
            (Outcome.ret r, st.log evsH)) ∧
      (∀ t k, Event.execute t k ∈ evsP →
        k = { User := w, Campaign := c.EmailMeta, CssContent := css,
              Content := (E.templateExecute c.tText (bodyCtx c w)).1 }) ∧
      (∀ t k, Event.execute t k ∈ evsH →
        k = { User := w, Campaign := c.EmailMeta, CssContent := css,
              Content := E.markdownCommon (E.templateExecute c.tText (bodyCtx c w)).1 })) := by
  constructor
  · intro body path dflt ctx st
    obtain ⟨r, evs, hr, hex, _⟩ := renderIntoLayout_returns E body path dflt ctx st
    refine ⟨r, evs, hr, ?_⟩
    intro t k hk
    rw [hex t k hk]
    exact ⟨rfl, rfl, rfl, rfl⟩
  · have hcss : ∀ t k, Event.execute t k ∉ cssEvents E := by
      intro t k
      unfold cssEvents
      split <;> simp
    rw [renderMessage_run E c i w s hi hw]
    rcases hb : E.templateExecute c.tText (bodyCtx c w) with ⟨content, _ | berr⟩
    · simp only
      obtain ⟨rp, evp, hp, hpx, _⟩ := renderPlain_returns E content (tLayoutFile E)
        (layoutCtx E c w) (s.log (Event.execute c.tText (bodyCtx c w) :: cssEvents E))
      rw [hp]
      rcases rp with ⟨plainBody, _ | perr⟩
      · simp only
        obtain ⟨rh, evh, hh, hhx⟩ := renderHTML_returns E content (hLayoutFile E)
          (layoutCtx E c w)
          ((s.log (Event.execute c.tText (bodyCtx c w) :: cssEvents E)).log evp)
        rw [hh]
        refine ⟨cssContent E, cssEvents E, evp, evh, ?_, hcss, Or.inr ⟨_, _, hp⟩,
          Or.inr ⟨_, _, hh⟩, hpx, hhx⟩
        rcases rh with ⟨htmlBody, _ | herr⟩ <;> simp [St.log, bodyCtx]
      · refine ⟨cssContent E, cssEvents E, evp, [], ?_, hcss, Or.inr ⟨_, _, hp⟩, Or.inl rfl,
          hpx, by simp⟩
        simp [St.log, bodyCtx]
    · refine ⟨"", [], [], [], ?_, by simp, Or.inl rfl, Or.inl rfl, by simp, by simp⟩
      simp [St.log, bodyCtx]

/-- C10 at work: a plain layout and the default HTML wrapper; the three
executions see `Content` empty, the body text, and the converted body. -/
theorem render_contexts_witness :
    (renderMessage (demoEnv [("layouts/_default.text", Entry.file "-- \x7b\x7b .Content \x7d\x7d --")])
        demoCampaign 0 s0).2 =
      { msg :=
          { header := [("To", HeaderValue.address "a@x.com" "A"),
              ("From", HeaderValue.values ["news@x.com"]),
              ("Subject", HeaderValue.values ["Hi"])]
            parts := [("text/plain", "-- Hello --"),
              ("text/html", "<html><body><p>Hello</p>\n</body></html>")]
            attachments := []
            embedded := [] }
        trace :=
          [Event.execute { name := "email", text := "Hello" }
              { User := [("email", Value.str "a@x.com"), ("username", Value.str "A")],
                Campaign := demoCampaign.EmailMeta, CssContent := "", Content := "" },
            Event.stat "layouts/_default.css",
            Event.stat "layouts/_default.text",
            Event.readFile "layouts/_default.text",
            Event.parse "layout" "-- \x7b\x7b .Content \x7d\x7d --",
            Event.execute { name := "layout", text := "-- \x7b\x7b .Content \x7d\x7d --" }
              { User := [("email", Value.str "a@x.com"), ("username", Value.str "A")],
                Campaign := demoCampaign.EmailMeta, CssContent := "", Content := "Hello" },
            Event.markdown "Hello",
            Event.stat "layouts/_default.html",
            Event.parse "layout" defaultHTMLLayout,
            Event.execute { name := "layout", text := defaultHTMLLayout }
              { User := [("email", Value.str "a@x.com"), ("username", Value.str "A")],
                Campaign := demoCampaign.EmailMeta, CssContent := "",
                Content := "<p>Hello</p>\n" },
            Event.inlineCss "<html><body><p>Hello</p>\n</body></html>"] } ∧
    ∃ css evsC evsP evsH,
      (renderMessage (demoEnv [("layouts/_default.text", Entry.file "-- \x7b\x7b .Content \x7d\x7d --")])
          demoCampaign 0 s0).2.trace =
        s0.trace ++
          Event.execute demoCampaign.tText
            { User := [("email", Value.str "a@x.com"), ("username", Value.str "A")],
              Campaign := demoCampaign.EmailMeta, CssContent := "", Content := "" }
            :: (evsC ++ (evsP ++ evsH)) ∧
      (∀ t k, Event.execute t k ∈ evsP →
        k = { User := [("email", Value.str "a@x.com"), ("username", Value.str "A")],
              Campaign := demoCampaign.EmailMeta, CssContent := css,
              Content := ((demoEnv [("layouts/_default.text",
                Entry.file "-- \x7b\x7b .Content \x7d\x7d --")]).templateExecute demoCampaign.tText
                  (bodyCtx demoCampaign
                    [("email", Value.str "a@x.com"), ("username", Value.str "A")])).1 }) := by
  refine ⟨by decide, ?_⟩
  obtain ⟨css, evsC, evsP, evsH, h1, _, _, _, h5, _⟩ :=
    (render_contexts (demoEnv [("layouts/_default.text", Entry.file "-- \x7b\x7b .Content \x7d\x7d --")])
      demoCampaign 0 [("email", Value.str "a@x.com"), ("username", Value.str "A")] s0
      (by decide) (by decide)).2
  exact ⟨css, evsC, evsP, evsH, h1, h5⟩

/-! ## Loading a campaign -/

/-- C6.  `LoadCampaign` returns no campaign and the error of the template stage
when the template file cannot be opened, when the frontmatter reader fails on
it, and when its body does not parse as a template.  In each case the calls
made are those of the template stage alone: the recipient file is not read and
the YAML decoder is not called, so nothing about the recipient list bears on
the result. -/
theorem LoadCampaign_template_first (E : Env) (tmplID listID : String) (s : St) :
    (∀ err, E.fsOpen (E.filepathJoin (E.configGetString "contentDir") (tmplID ++ ".md")) =
        some err →
      LoadCampaign E tmplID listID s =
        (Outcome.ret (none, some err),
          s.log [Event.println ["Loading template: ",
              E.filepathJoin (E.configGetString "contentDir") (tmplID ++ ".md")],
            Event.openFile (E.filepathJoin (E.configGetString "contentDir") (tmplID ++ ".md"))])) ∧
    (∀ err, E.fsOpen (E.filepathJoin (E.configGetString "contentDir") (tmplID ++ ".md")) = none →
      E.parserReadFrom (E.filepathJoin (E.configGetString "contentDir") (tmplID ++ ".md")) =
        Except.error err →
      LoadCampaign E tmplID listID s =
        (Outcome.ret (none, some err),
          s.log [Event.println ["Loading template: ",
              E.filepathJoin (E.configGetString "contentDir") (tmplID ++ ".md")],
            Event.openFile (E.filepathJoin (E.configGetString "contentDir") (tmplID ++ ".md")),
            Event.readFrom (E.filepathJoin (E.configGetString "contentDir") (tmplID ++ ".md")),
            Event.closeFile (E.filepathJoin (E.configGetString "contentDir") (tmplID ++ ".md"))])) ∧
    (∀ email err,
      E.fsOpen (E.filepathJoin (E.configGetString "contentDir") (tmplID ++ ".md")) = none →
      E.parserReadFrom (E.filepathJoin (E.configGetString "contentDir") (tmplID ++ ".md")) =
        Except.ok email →
      E.templateParse "email" email.content = some err →
      LoadCampaign E tmplID listID s =
        (Outcome.ret (none, some err),
          s.log [Event.println ["Loading template: ",
              E.filepathJoin (E.configGetString "contentDir") (tmplID ++ ".md")],
            Event.openFile (E.filepathJoin (E.configGetString "contentDir") (tmplID ++ ".md")),
            Event.readFrom (E.filepathJoin (E.configGetString "contentDir") (tmplID ++ ".md")),
            Event.closeFile (E.filepathJoin (E.configGetString "contentDir") (tmplID ++ ".md")),
            Event.parse "email" email.content])) ∧
    (∀ err s1,
      parseTemplate E (E.filepathJoin (E.configGetString "contentDir") (tmplID ++ ".md")) s =
        (Outcome.ret (Except.error err), s1) →
      LoadCampaign E tmplID listID s = (Outcome.ret (none, some err), s1)) := by
  refine ⟨?_, ?_, ?_, ?_⟩
  · intro err ho
    simp [LoadCampaign, parseTemplate, run_bind, run_pure, run_emit, ho, St.log]
  · intro err ho hr
    simp [LoadCampaign, parseTemplate, run_bind, run_pure, run_emit, ho, hr, St.log]
  · intro email err ho hr hp
    simp [LoadCampaign, parseTemplate, Parse, run_bind, run_pure, run_emit, ho, hr, hp, St.log]
  · intro err s1 h
    simp only [LoadCampaign, run_bind, h, run_pure]

/-- C6 at work: a missing template and a template that does not parse, each
with a recipient file that is missing as well. -/
theorem LoadCampaign_template_first_witness :
    LoadCampaign (demoEnv []) "news" "all" s0 =
      (Outcome.ret (none, some "file does not exist"),
        s0.log [Event.println ["Loading template: ", "content/news.md"],
          Event.openFile "content/news.md"]) ∧
    LoadCampaign (demoEnv [("content/news.md", Entry.file "Hello \x7b\x7b")]) "news" "all" s0 =
      (Outcome.ret (none, some "template: email: unexpected action"),
        s0.log [Event.println ["Loading template: ", "content/news.md"],
          Event.openFile "content/news.md", Event.readFrom "content/news.md",
          Event.closeFile "content/news.md", Event.parse "email" "Hello \x7b\x7b"]) :=
  ⟨(LoadCampaign_template_first (demoEnv []) "news" "all" s0).1 "file does not exist"
      (by decide),
   (LoadCampaign_template_first (demoEnv [("content/news.md", Entry.file "Hello \x7b\x7b")])
      "news" "all" s0).2.2.1
      { metadata :=
          (MetaValue.mapping [("subject", Value.str "Hi"), ("from", Value.str "news@x.com")], none)
        content := "Hello \x7b\x7b" }
      "template: email: unexpected action" (by decide) rfl (by decide)⟩

end Paperboy
